import Mathlib

/-! Verification development for the `pg-search-sequelize` library.

The library has four components, embedded shallowly below:
* `src/util/index.js` — the `allIndicesOf` string polyfill;
* `src/lib/searchModel.js` — `parseQuery` (the query-language parser) and
  the `search` orchestration (where/order construction);
* the query generator (`queryGenerator.js`) — a clause accumulator (`QG`)
  rendering SQL text, plus static SQL helper functions (`Fn`, `col`, …);
* `src/lib/queryInterface.js` — the weighted-document builder
  (`buildDocumentFromAttributes`, the include-processing step of
  `buildDocument`).

JavaScript strings are modelled as `List Char` (all inputs of interest are
ASCII, where JS UTF-16 code-unit indexing agrees with character indexing).
The JS string primitives used by the source (`indexOf`, `lastIndexOf`,
`substring`, `replace` with a plain-string pattern, `trim`, `parseInt`)
are reproduced with their exact clamping/fallback semantics.
-/

namespace PgSearch

/-- JS whitespace as relevant to `trim` / `parseInt` on the inputs at hand. -/
def isJsWs (c : Char) : Bool :=
  c == ' ' || c == '\t' || c == '\n' || c == '\r'

/-- Clamp a JS (possibly negative) index into `[0, len]`, as
`String.prototype.substring` / `lastIndexOf` do with their arguments. -/
def clampIdx (n : Int) (len : Nat) : Nat :=
  Nat.min n.toNat len

/-- Auxiliary scan for `jsIndexOf`: first position at which `pat` is a
prefix of the remaining string, numbering positions from `i`. -/
def idxAux (pat : List Char) : List Char → Nat → Int
  | [], i => if pat.isEmpty then (i : Int) else -1
  | c :: rest, i =>
    if pat.isPrefixOf (c :: rest) then (i : Int) else idxAux pat rest (i + 1)

/-- JS `s.indexOf(pat)`: index of the first occurrence, `-1` if none.
An empty pattern matches at position 0. -/
def jsIndexOf (s pat : List Char) : Int :=
  idxAux pat s 0

/-- JS `s.substring(a, b)`: both arguments clamped to `[0, s.length]` and
swapped when out of order. -/
def jsSubstring (s : List Char) (a b : Int) : List Char :=
  let x := clampIdx a s.length
  let y := clampIdx b s.length
  (s.take (Nat.max x y)).drop (Nat.min x y)

/-- JS `s.substring(a)` (one-argument form): drop the clamped prefix. -/
def jsDropFrom (s : List Char) (a : Int) : List Char :=
  s.drop (clampIdx a s.length)

/-- JS `s.lastIndexOf(pat, fromIdx)`: the largest position `≤ fromIdx`
(clamped into `[0, s.length]`) at which `pat` occurs, `-1` if none. -/
def jsLastIndexOf (s pat : List Char) (fromIdx : Int) : Int :=
  List.foldl (fun (_ : Int) (i : Nat) => (i : Int)) (-1)
    ((List.range (clampIdx fromIdx s.length + 1)).filter
      (fun i => pat.isPrefixOf (s.drop i)))

/-- JS `s.replace(pat, '')` with a plain-string pattern: remove the first
occurrence of `pat`, if any. (The source only ever replaces with `''`.) -/
def jsRemoveFirst (s pat : List Char) : List Char :=
  let i := jsIndexOf s pat
  if i < 0 then s else s.take i.toNat ++ s.drop (i.toNat + pat.length)

/-- JS `s.trim()`. -/
def jsTrim (s : List Char) : List Char :=
  ((s.dropWhile isJsWs).reverse.dropWhile isJsWs).reverse

/-- Decimal digit accumulator for `jsParseInt`: consume the longest digit
prefix. -/
def decAux : List Char → Nat → Nat
  | [], acc => acc
  | c :: rest, acc =>
    if c.isDigit then decAux rest (acc * 10 + (c.toNat - 48)) else acc

/-- Hexadecimal digit accumulator for `jsParseInt`. -/
def hexAux : List Char → Nat → Nat
  | [], acc => acc
  | c :: rest, acc =>
    if c.isDigit then hexAux rest (acc * 16 + (c.toNat - 48))
    else if 'a' ≤ c && c ≤ 'f' then hexAux rest (acc * 16 + (c.toNat - 87))
    else if 'A' ≤ c && c ≤ 'F' then hexAux rest (acc * 16 + (c.toNat - 55))
    else acc

/-- Whether a hex digit starts the list. -/
def headHexDigit (u : List Char) : Bool :=
  match u.head? with
  | some c => c.isDigit || ('a' ≤ c && c ≤ 'f') || ('A' ≤ c && c ≤ 'F')
  | none => false

/-- Whether a decimal digit starts the list. -/
def headDigit (u : List Char) : Bool :=
  match u.head? with
  | some c => c.isDigit
  | none => false

/-- Unsigned part of `jsParseInt`: `0x`/`0X` switches to hexadecimal;
`none` ("NaN") when no digit follows. -/
def parseUnsigned (u : List Char) : Option Nat :=
  match u with
  | '0' :: 'x' :: v => if headHexDigit v then some (hexAux v 0) else none
  | '0' :: 'X' :: v => if headHexDigit v then some (hexAux v 0) else none
  | _ => if headDigit u then some (decAux u 0) else none

/-- JS `parseInt(s)` (radix unspecified): optional leading whitespace and
sign, then the longest numeric prefix; `none` models `NaN`. -/
def jsParseInt (s : List Char) : Option Int :=
  let t := s.dropWhile isJsWs
  match t with
  | '-' :: u => (parseUnsigned u).map (fun n => -(n : Int))
  | '+' :: u => (parseUnsigned u).map (fun n => (n : Int))
  | u => (parseUnsigned u).map (fun n => (n : Int))

/-- Auxiliary loop of the `allIndicesOf` polyfill (`src/util/index.js`).
`last` is the previously pushed index; each round searches
`s.substring(last + 1)` and pushes the found index shifted back.  The
polyfill's do-while terminates because indices strictly increase; `fuel`
(always called with `s.length + 1`) is an upper bound on the rounds. -/
def allIndicesAux (s sub : List Char) : Nat → Int → List Int
  | 0, _ => []
  | fuel + 1, last =>
    let prev := last + 1
    let r := jsIndexOf (jsDropFrom s prev) sub
    if r > -1 then (r + prev) :: allIndicesAux s sub fuel (r + prev) else []

/-- The `allIndicesOf` polyfill: starts from `s.indexOf(sub)` (which may be
`-1`, and is pushed unconditionally), then repeatedly searches the rest. -/
def allIndicesOf (s sub : List Char) : List Int :=
  jsIndexOf s sub :: allIndicesAux s sub (s.length + 1) (jsIndexOf s sub)

/-- JS object-assignment on a key-ordered association list:
`obj[k] = v` overwrites in place when the key exists, otherwise appends. -/
def objInsert {α : Type} : List (String × α) → String → α → List (String × α)
  | [], k, v => [(k, v)]
  | (k', v') :: rest, k, v =>
    if k' = k then (k, v) :: rest else (k', v') :: objInsert rest k v

/-- Lookup in a JS-object association list. -/
def objLookup {α : Type} : List (String × α) → String → Option α
  | [], _ => none
  | (k', v') :: rest, k => if k' = k then some v' else objLookup rest k

/-- The `options` record accumulated by `SearchModel.parseQuery`
(`src/lib/searchModel.js`): `whereL` maps attribute names to
`(operator, value)`; `order` collects `(expression, direction)` pairs;
`limit`/`offset` are JS numbers where `none` models `NaN`. -/
structure ParseOptions where
  whereL : List (String × String × String)
  order : List (String × String)
  limit : Option Int
  offset : Option Int
deriving DecidableEq, Repr

/-- Initial options of `parseQuery`: `{where: {}, order: [], limit: -1, offset: 0}`. -/
def initOptions : ParseOptions :=
  { whereL := [], order := [], limit := some (-1), offset := some 0 }

/-- Does the trimmed value start with a comparison operator character
(`=`, `>`, `<`)? Mirrors `['=', '>', '<'].some(op => op === value.charAt(0))`. -/
def startsCmp (value : List Char) : Bool :=
  value.head? == some '=' || value.head? == some '>' || value.head? == some '<'

/-- One iteration of the `keys.forEach` body of `parseQuery`, for a
non-empty key `k`; `nextKey` is `keys[i+1]` when the key is not the last.
Returns the updated (mutated) query string and options. -/
def parseStep (k : List Char) (nextKey : Option (List Char)) (q : List Char)
    (o : ParseOptions) : List Char × ParseOptions :=
  let endIdx : Int :=
    match nextKey with
    | none => (q.length : Int)
    | some k2 => jsIndexOf q k2
  let start : Int := jsIndexOf q k + (k.length : Int) + 1
  let originalValue := jsSubstring q start endIdx
  let value := jsTrim originalValue
  let kS := String.mk k
  if kS = "order" then
    let e :=
      if value.head? == some '!' then (String.mk (value.drop 1), "DESC")
      else (String.mk value, "ASC")
    (jsRemoveFirst q (k ++ ':' :: originalValue),
     { o with order := o.order ++ [e] })
  else if startsCmp value then
    let opLen := if value.get? 1 == some '=' then 2 else 1
    let op := value.take opLen
    let ov2 := value.drop opLen
    let v2 := jsTrim ov2
    (jsRemoveFirst q (k ++ ':' :: (op ++ ov2)),
     { o with whereL := objInsert o.whereL kS (String.mk op, String.mk v2) })
  else if kS = "limit" then
    (jsRemoveFirst q (k ++ ':' :: originalValue),
     { o with limit := jsParseInt value })
  else if kS = "offset" then
    (jsRemoveFirst q (k ++ ':' :: originalValue),
     { o with offset := jsParseInt value })
  else
    (jsRemoveFirst q (k ++ ':' :: originalValue),
     { o with whereL := objInsert o.whereL kS ("ilike", String.mk value) })

/-- The `keys.forEach` loop of `parseQuery`: empty keys are skipped
(`if (key)`), the query string is threaded through the removals. -/
def parseLoop : List (List Char) → List Char → ParseOptions →
    List Char × ParseOptions
  | [], q, o => (q, o)
  | k :: rest, q, o =>
    if k = [] then parseLoop rest q o
    else
      parseLoop rest (parseStep k rest.head? q o).1 (parseStep k rest.head? q o).2

/-- Source `SearchModel.parseQuery` on character lists: compute the key at each
colon (the text between the last space before the colon and the colon),
then run the loop. -/
def parseQueryL (raw : List Char) : List Char × ParseOptions :=
  let keys := (allIndicesOf raw [':']).map
    (fun idx => jsSubstring raw (jsLastIndexOf raw [' '] idx + 1) idx)
  parseLoop keys raw initOptions

/-- Source `SearchModel.parseQuery`: returns `[query.trim(), options]`. -/
def parseQuery (raw : String) : String × ParseOptions :=
  (String.mk (jsTrim (parseQueryL raw.data).1), (parseQueryL raw.data).2)

/-! Section: The query generator (`queryGenerator.js`) -/

/-- JS `Array.prototype.join(sep)`. -/
def joinSep (sep : String) : List String → String
  | [] => ""
  | [x] => x
  | x :: y :: rest => x ++ sep ++ joinSep sep (y :: rest)

/-- The `Fn` helper class: a Postgres function call rendered by `build()`
as `fn(arg1, arg2, …)`. -/
structure Fn where
  fn : String
  args : List String
deriving DecidableEq, Repr

/-- Source `Fn.prototype.build`: `this.fn + '(' + this.args.join(', ') + ')'`. -/
def Fn.build (f : Fn) : String :=
  f.fn ++ "(" ++ joinSep ", " f.args ++ ")"

/-- Source `QueryGenerator.col(field, model, as)`; the `model` argument (a model
object or a table-name string in the source) is represented by its table
name, `none` when absent. -/
def col (field : String) (tbl : Option String) (alias_ : Option String) : String :=
  (match tbl with
   | some t => "\"" ++ t ++ "\"" ++ "."
   | none => "") ++
  "\"" ++ field ++ "\"" ++
  (match alias_ with
   | some a => " AS \"" ++ a ++ "\""
   | none => "")

/-- Source `QueryGenerator.cast(field)` with the default `TEXT` target type. -/
def castText (field : String) : String :=
  field ++ "::TEXT"

/-- Source `QueryGenerator.coalesce(field)` with the default `''` fallback. -/
def coalesce (field : String) : Fn :=
  { fn := "coalesce", args := [field, "''"] }

/-- Source `QueryGenerator.stringAggregate(field)` with the default `', '` separator. -/
def stringAggregate (field : String) : Fn :=
  { fn := "string_agg", args := [field, "', '"] }

/-- Source `QueryGenerator.setWeight(field, weight)`. -/
def setWeight (field weight : String) : Fn :=
  { fn := "setweight", args := [field, "'" ++ weight ++ "'"] }

/-- Source `QueryGenerator.toTSVector(field)`. -/
def toTSVector (field : String) : Fn :=
  { fn := "to_tsvector", args := [field] }

/-- Source `query.replace(/ /g, ' & ')`: every space character becomes `' & '`. -/
def tsReplaceChars : List Char → List Char
  | [] => []
  | c :: rest =>
    (if c = ' ' then [' ', '&', ' '] else [c]) ++ tsReplaceChars rest

/-- String-level wrapper for the global space replacement. -/
def tsReplaceSpaces (s : String) : String :=
  String.mk (tsReplaceChars s.data)

/-- Source `QueryGenerator.toTSQuery(query)`:
`new Fn('to_tsquery', "'" + query.replace(/ /g, ' & ') + ":*'")`. -/
def toTSQuery (query : String) : Fn :=
  { fn := "to_tsquery", args := ["'" ++ tsReplaceSpaces query ++ ":*'"] }

/-- Source `QueryGenerator.tsRank(tsVector, tsQuery)`. -/
def tsRank (tsVector : String) (tsQuery : Fn) : Fn :=
  { fn := "ts_rank", args := [tsVector, tsQuery.build] }

/-- A sequelize model as consumed by the query generator / search model:
its table name, primary-key field, the attribute-name → column-field map,
and whether an attribute's type is string-like (STRING/CHAR/TEXT).  The
last two are total functions: the source indexes `model.attributes`
directly and only well-formed lookups occur on the paths modelled here. -/
structure ModelRef where
  tableName : String
  primaryKeyField : String
  attrField : String → String
  attrStringLike : String → Bool

/-- Source `QueryGenerator.table(model)` for a model argument. -/
def tableOf (m : ModelRef) : String :=
  "\"" ++ m.tableName ++ "\""

/-- Source `QueryGenerator.table(name)` for a table-name string argument. -/
def tableOfName (t : String) : String :=
  "\"" ++ t ++ "\""

/-- A value on the right-hand side of a `where` predicate: a plain JS
string, or an `Fn` instance (rendered via `build`). -/
inductive WhereVal where
  | str (s : String)
  | fnv (f : Fn)
deriving DecidableEq, Repr

/-- One entry of the attributes object passed to `QueryGenerator#where`:
optional owning model, comparison operator, and value. -/
structure WhereAttr where
  model : Option ModelRef
  operator : String
  value : WhereVal

/-- An `orderBy` entry's first component: an `Fn` (rendered via `build`)
or a plain string expression. -/
inductive OrderVal where
  | fnv (f : Fn)
  | strv (s : String)
deriving DecidableEq, Repr

/-- A field spec passed to `QueryGenerator#select`: either a raw
expression with alias, or a column owned by a model (represented by its
table name). -/
structure SelectField where
  raw : Option String
  model : Option String
  alias_ : Option String

/-- The accumulated query state of a `QueryGenerator` instance
(`this.query` plus `this.model` set by `from`). `none` in `limit`/`offset`
models JS `NaN`/`undefined` (both compare false against 0). -/
structure QG where
  model? : Option ModelRef
  create : String
  selectL : List String
  from_ : String
  joinL : List String
  whereL : List String
  groupByL : List String
  orderByL : List String
  limit : Option Int
  offset : Option Int

/-- The `QueryGenerator` constructor state. -/
def QG.init : QG :=
  { model? := none, create := "", selectL := [], from_ := "", joinL := [],
    whereL := [], groupByL := [], orderByL := [], limit := some (-1),
    offset := some 0 }

/-- Source `QueryGenerator#createMaterializedView(name)` (called with the view's
name string; `table` quotes it). -/
def QG.createMaterializedView (g : QG) (name : String) : QG :=
  { g with create := tableOfName name }

/-- Source `QueryGenerator#from(model)`. -/
def QG.fromM (g : QG) (m : ModelRef) : QG :=
  { g with model? := some m, from_ := tableOf m }

/-- Source `QueryGenerator#select(fields)`: raw fields render as
`raw AS "alias"`, others as qualified columns. -/
def QG.selectM (g : QG) (fields : List (String × SelectField)) : QG :=
  { g with selectL := g.selectL ++ fields.map (fun kf =>
      match kf.2.raw with
      | some r => r ++ " AS \"" ++ (kf.2.alias_.getD "undefined") ++ "\""
      | none => col kf.1 kf.2.model kf.2.alias_) }

/-- Source `QueryGenerator#leftOuterJoin(referenceModel, model)` — the two-model
call shape used by `SearchModel.search`: joins `referenceModel` on its
primary key against `model`'s primary key. -/
def QG.leftOuterJoinModel (g : QG) (refM m : ModelRef) : QG :=
  { g with joinL := g.joinL ++
      ["LEFT OUTER JOIN " ++ tableOf refM ++ " ON " ++
       col refM.primaryKeyField (some refM.tableName) none ++ " = " ++
       col m.primaryKeyField (some m.tableName) none] }

/-- Source `QueryGenerator#leftOuterJoin(model, foreignKey, targetKey, as)` — the
key-string call shape used by the document builder. -/
def QG.leftOuterJoinKeys (g : QG) (m : ModelRef) (foreignKey targetKey : String)
    (alias_ : Option String) : QG :=
  { g with joinL := g.joinL ++
      ["LEFT OUTER JOIN " ++ tableOf m ++
       (match alias_ with
        | some a => " AS \"" ++ a ++ "\""
        | none => "") ++
       " ON " ++ foreignKey ++ " = " ++ targetKey] }

/-- Render one `where` predicate. The owning model falls back to
`this.model`; when neither is set the JS source raises a `TypeError`
(`none` here).  `ilike` casts non-string-like columns to text and wraps
the value in `%`; an `Fn` value in the `ilike` branch would be coerced by
JS string concatenation to `[object Object]`. -/
def renderWhereEntry (thisModel : Option ModelRef) (k : String)
    (a : WhereAttr) : Option String :=
  match (match a.model with
         | some m => some m
         | none => thisModel) with
  | none => none
  | some m =>
    let field := col (m.attrField k) (some m.tableName) none
    if a.operator = "ilike" then
      let field := if m.attrStringLike k then field else castText field
      let v := match a.value with
               | WhereVal.str s => s
               | WhereVal.fnv _ => "[object Object]"
      some (field ++ " ILIKE " ++ "'" ++ ("%" ++ v ++ "%") ++ "'")
    else
      let v := match a.value with
               | WhereVal.fnv f => f.build
               | WhereVal.str s => "'" ++ s ++ "'"
      some (field ++ " " ++ a.operator ++ " " ++ v)

/-- Source `QueryGenerator#where(attributes)`: pushes one rendered predicate per
entry, in object-key order; `none` when some entry has no resolvable
model (a JS `TypeError`). -/
def QG.whereM (g : QG) (attrs : List (String × WhereAttr)) : Option QG :=
  (attrs.mapM (fun ka => renderWhereEntry g.model? ka.1 ka.2)).map
    (fun rs => { g with whereL := g.whereL ++ rs })

/-- Source `QueryGenerator#groupBy(field, model)`: the second argument is a model
or table-name string, represented by the table name (`none` = absent). -/
def QG.groupByM (g : QG) (field : String) (tbl : Option String) : QG :=
  { g with groupByL := g.groupByL ++
      [match tbl with
       | some t => col field (some t) none
       | none => field] }

/-- Source `QueryGenerator#orderBy(fields)`: `Fn` entries are `build()`-rendered. -/
def QG.orderByM (g : QG) (fields : List (OrderVal × String)) : QG :=
  { g with orderByL := g.orderByL ++ fields.map (fun fd =>
      (match fd.1 with
       | OrderVal.fnv f => f.build
       | OrderVal.strv s => s) ++ " " ++ fd.2) }

/-- Source `QueryGenerator#limit(max)`. -/
def QG.limitM (g : QG) (max : Option Int) : QG :=
  { g with limit := max }

/-- Source `QueryGenerator#offset(val)`. -/
def QG.offsetM (g : QG) (val : Option Int) : QG :=
  { g with offset := val }

/-- Source `getCreate()`. -/
def QG.getCreate (g : QG) : String :=
  if g.create ≠ "" then "CREATE MATERIALIZED VIEW " ++ g.create ++ " AS" else ""

/-- Source `getSelect()`. -/
def QG.getSelect (g : QG) : String :=
  if g.selectL.length > 0 then "SELECT " ++ joinSep ", " g.selectL else ""

/-- Source `getFrom()`. -/
def QG.getFrom (g : QG) : String :=
  if g.from_ ≠ "" then "FROM " ++ g.from_ else ""

/-- Source `getJoin()`. -/
def QG.getJoin (g : QG) : String :=
  if g.joinL.length > 0 then joinSep " " g.joinL else ""

/-- Source `getWhere()`. -/
def QG.getWhere (g : QG) : String :=
  if g.whereL.length > 0 then "WHERE " ++ joinSep " AND " g.whereL else ""

/-- Source `getGroupBy()`. -/
def QG.getGroupBy (g : QG) : String :=
  if g.groupByL.length > 0 then "GROUP BY " ++ joinSep ", " g.groupByL else ""

/-- Source `getOrderBy()`. -/
def QG.getOrderBy (g : QG) : String :=
  if g.orderByL.length > 0 then "ORDER BY " ++ joinSep ", " g.orderByL else ""

/-- Source `getLimit()`: `this.query.limit >= 0 ? 'LIMIT ' + limit : ''`
(`NaN`/`undefined`, i.e. `none`, compares false). -/
def QG.getLimit (g : QG) : String :=
  match g.limit with
  | some n => if n ≥ 0 then "LIMIT " ++ toString n else ""
  | none => ""

/-- Source `getOffset()`: `this.query.offset > 0 ? 'OFFSET ' + offset : ''`. -/
def QG.getOffset (g : QG) : String :=
  match g.offset with
  | some n => if n > 0 then "OFFSET " ++ toString n else ""
  | none => ""

/-- Source `getQuery()` (`src/unnamed/part_003`, lines 236-239): the getters are
concatenated with one literal space between each adjacent pair — except
between `getLimit()` and `getOffset()`, which abut — and a final `;`. -/
def QG.getQuery (g : QG) : String :=
  g.getCreate ++ " " ++ g.getSelect ++ " " ++ g.getFrom ++ " " ++
    g.getJoin ++ " " ++ g.getWhere ++ " " ++ g.getGroupBy ++ " " ++
    g.getOrderBy ++ " " ++ g.getLimit ++ g.getOffset ++ ";"

/-! Section: The search orchestrator (`src/lib/searchModel.js`) -/

/-- Source `Util.isEmptyObject(options.order)` for an (optional) order array:
`undefined` and `[]` are both "empty". -/
def emptyOrder (o : Option (List (String × String))) : Bool :=
  match o with
  | none => true
  | some l => l.isEmpty

/-- The where-object construction of `SearchModel.search` (lines 66-70):
caller filters get `referenceModel` assigned as their model; a present
text query inserts `where.document = {operator: '@@', value: tsquery}`
(no model — it resolves to the view model). -/
def searchWhere (query : Option Fn)
    (optWhere : List (String × String × WhereVal)) (refM : ModelRef) :
    List (String × WhereAttr) :=
  let w1 := optWhere.map (fun kv =>
    (kv.1, { model := some refM, operator := kv.2.1, value := kv.2.2 : WhereAttr }))
  match query with
  | some f => objInsert w1 "document"
      { model := none, operator := "@@", value := WhereVal.fnv f }
  | none => w1

/-- The order-by construction of `SearchModel.search` (lines 72-76):
caller entries are mapped from attribute name to qualified reference-model
column; when a text query is present and `options.order` is empty
(`undefined` or `[]`), a `ts_rank(document, query) DESC` entry is
unshifted in front. `viewTable` is the materialized-view model's table. -/
def searchOrderBy (query : Option Fn)
    (optOrder : Option (List (String × String))) (refM : ModelRef)
    (viewTable : String) : List (OrderVal × String) :=
  let mapped := (optOrder.getD []).map (fun ad =>
    (OrderVal.strv (col (refM.attrField ad.1) (some refM.tableName) none), ad.2))
  match query, emptyOrder optOrder with
  | some f, true =>
    (OrderVal.fnv (tsRank (col "document" (some viewTable) none) f), "DESC")
      :: mapped
  | _, _ => mapped

/-! Section: The document builder (`src/lib/queryInterface.js`) -/

/-- A value of the attribute-weights object: a weight string, or any
non-string JS value (the source checks `typeof attributes[key] === 'string'`). -/
inductive JsVal where
  | str (s : String)
  | obj
deriving DecidableEq, Repr

/-- One attribute's entry in a `model.describe()` result: its storage type
name and nullability. -/
structure AttrDesc where
  type_ : String
  allowNull : Bool

/-- The per-attribute pipeline of `buildDocumentFromAttributes` for a
string weight `w`: cast non-text types, optionally aggregate, optionally
coalesce, then `setweight(to_tsvector(…), 'w')`. -/
def buildFragment (desc : String → AttrDesc) (tableName : String)
    (areNullable shouldAggregate : Bool) (key w : String) : String :=
  let attr := desc key
  let shouldCast := ¬(attr.type_ = "TEXT" ∨ attr.type_ = "CHARACTER VARYING" ∨
    attr.type_ = "CHARACTER")
  let c0 := col key (some tableName) none
  let c1 := if shouldCast then castText c0 else c0
  let c2 := if shouldAggregate then (stringAggregate c1).build else c1
  let c3 := if areNullable ∨ attr.allowNull then (coalesce c2).build else c2
  (setWeight (toTSVector c3).build w).build

/-- Source `QueryInterface#buildDocumentFromAttributes` (lines 113-131): maps the
attribute-weights object to SQL fragments; a non-string weight value
throws `TypeError('Must be either a weight or attributes of model')`. -/
def buildDocumentFromAttributes (attrs : List (String × JsVal))
    (desc : String → AttrDesc) (tableName : String)
    (areNullable shouldAggregate : Bool) : Except String (List String) :=
  match attrs with
  | [] => Except.ok []
  | (k, v) :: rest =>
    match v with
    | JsVal.obj => Except.error "Must be either a weight or attributes of model"
    | JsVal.str w =>
      match buildDocumentFromAttributes rest desc tableName areNullable
          shouldAggregate with
      | Except.error e => Except.error e
      | Except.ok tail =>
        Except.ok (buildFragment desc tableName areNullable shouldAggregate k w
          :: tail)

/-- A model as seen by the document builder (only table name and primary
key are consulted on the include path). -/
structure DescModel where
  tableName : String
  primaryKeyField : String
deriving DecidableEq, Repr

/-- One entry of `options.include` handed to `buildDocument`. -/
structure IncludeSpec where
  modelRef : DescModel
  foreignKey : String
  targetKey : String
  associationType : String
  alias_ : Option String
deriving DecidableEq, Repr

/-- The include-processing step of `QueryInterface#buildDocument`
(lines 77-93): choose join direction and group-by field from the
association type, force aggregation for `hasMany`, emit the
`LEFT OUTER JOIN`, and emit a group-by entry unless aggregating.  Returns
the join clause, the group-by entries added (`[]` or a singleton), and the
`shouldAggregate` flag passed on to `buildDocumentFromAttributes` and to
nested includes. -/
def processInclude (inc : IncludeSpec) (parentTableName : String)
    (shouldAggregateIn : Bool) : String × List String × Bool :=
  let m := inc.modelRef
  if inc.associationType = "belongsTo" then
    let foreignKey := col inc.foreignKey (some parentTableName) none
    let targetKey := col inc.targetKey (some m.tableName) none
    let join := "LEFT OUTER JOIN " ++ tableOfName m.tableName ++
      (match inc.alias_ with
       | some a => " AS \"" ++ a ++ "\""
       | none => "") ++
      " ON " ++ foreignKey ++ " = " ++ targetKey
    (join,
     if shouldAggregateIn then []
     else [col inc.targetKey (some (inc.alias_.getD m.tableName)) none],
     shouldAggregateIn)
  else
    let agg := shouldAggregateIn || (inc.associationType = "hasMany")
    let foreignKey := col inc.foreignKey (some m.tableName) none
    let targetKey := col inc.targetKey (some parentTableName) none
    let join := "LEFT OUTER JOIN " ++ tableOfName m.tableName ++
      (match inc.alias_ with
       | some a => " AS \"" ++ a ++ "\""
       | none => "") ++
      " ON " ++ foreignKey ++ " = " ++ targetKey
    (join,
     if agg then []
     else [col m.primaryKeyField (some (inc.alias_.getD m.tableName)) none],
     agg)

/-! Section: Spec-side comparators

These two definitions follow the specification's words (for refinement
comparison against the source-derived definitions above); they are not
translations of the source. -/

/-- Spec-side rendering of `getQuery`: "joining non-empty clauses with
single spaces and omitting empty ones entirely", in the fixed clause
order, with the terminating semicolon. -/
def specGetQuery (g : QG) : String :=
  joinSep " " (([g.getCreate, g.getSelect, g.getFrom, g.getJoin, g.getWhere,
    g.getGroupBy, g.getOrderBy, g.getLimit, g.getOffset]).filter
      (fun s => s != "")) ++ ";"

/-- Whitespace splitter (dropping empty words) for the spec-side
text-query compilation; `acc` holds the current word reversed. -/
def splitWsAux : List Char → List Char → List (List Char)
  | [], acc => if acc.isEmpty then [] else [acc.reverse]
  | c :: rest, acc =>
    if c.isWhitespace then
      (if acc.isEmpty then [] else [acc.reverse]) ++ splitWsAux rest []
    else splitWsAux rest (c :: acc)

/-- Spec-side text-query compilation: "split on whitespace, join words
with the logical-AND operator, and mark the final word as a prefix
match". -/
def specTSQuery (s : String) : Fn :=
  { fn := "to_tsquery",
    args := ["'" ++
      joinSep " & " ((splitWsAux s.data []).map String.mk) ++
      ":*'"] }

/-! Section: Concrete fixtures used by witnesses and counterexamples -/

/-- A reference model shaped like the README's `film` table (attribute
names equal field names, all attributes string-like). -/
def refMEx : ModelRef :=
  { tableName := "film", primaryKeyField := "film_id",
    attrField := fun a => a, attrStringLike := fun _ => true }

/-- A described-table fixture: every attribute `TEXT` and non-nullable. -/
def descEx : String → AttrDesc :=
  fun _ => { type_ := "TEXT", allowNull := false }

/-- A described-table fixture with `CHARACTER VARYING` attributes. -/
def descVarcharEx : String → AttrDesc :=
  fun _ => { type_ := "CHARACTER VARYING", allowNull := false }

/-- A `hasMany` include fixture (`film` has many `actor` rows via
`film_id`, aliased `Actors`). -/
def incHasManyEx : IncludeSpec :=
  { modelRef := { tableName := "actor", primaryKeyField := "actor_id" },
    foreignKey := "film_id", targetKey := "film_id",
    associationType := "hasMany", alias_ := some "Actors" }

/-- A `belongsTo` include fixture (`film` belongs to `category`). -/
def incBelongsToEx : IncludeSpec :=
  { modelRef := { tableName := "category", primaryKeyField := "category_id" },
    foreignKey := "category_id", targetKey := "id",
    associationType := "belongsTo", alias_ := none }

/-- A generator state with two accumulated where predicates (as produced
by `whereM` on `refMEx`). -/
def gEx10 : QG :=
  (((QG.init.fromM refMEx).whereM
    [("title", { model := none, operator := "=",
                 value := WhereVal.str "Inception" }),
     ("rating", { model := none, operator := ">",
                  value := WhereVal.str "8" })])).getD QG.init

/-- A generator state with only FROM, LIMIT and OFFSET set. -/
def gEx3 : QG :=
  ((QG.init.fromM refMEx).limitM (some 2)).offsetM (some 1)

/-- A generator state with every clause except OFFSET non-empty. -/
def gEx3full : QG :=
  { QG.init with
    create := tableOfName "film_materialized_view",
    selectL := ["\"film\".\"title\""],
    from_ := "\"film_materialized_view\"",
    joinL := ["LEFT OUTER JOIN \"film\" ON \"film\".\"film_id\" = \"film_materialized_view\".\"film_id\""],
    whereL := ["\"film\".\"title\" ILIKE '%Mind%'"],
    groupByL := ["\"film_materialized_view\".\"film_id\""],
    orderByL := ["\"film\".\"title\" ASC"],
    limit := some 2,
    offset := some 0 }

/-! Section: Helper lemmas -/

/-- Looking up a key right after JS-style insertion returns the inserted
value. -/
theorem objLookup_objInsert {α : Type} (m : List (String × α)) (k : String)
    (v : α) : objLookup (objInsert m k v) k = some v := by
  induction m with
  | nil => simp [objInsert, objLookup]
  | cons kv rest ih =>
    by_cases h : kv.1 = k
    · simp [objInsert, objLookup, h]
    · simp [objInsert, objLookup, h, ih]

/-- A single character that occurs nowhere in the string is not found by
the index scan, from any starting offset. -/
theorem idxAux_single_neg (p : Char) (s : List Char)
    (h : ∀ c ∈ s, c ≠ p) : ∀ i, idxAux [p] s i = -1 := by
  induction s with
  | nil => intro i; simp [idxAux]
  | cons c rest ih =>
    intro i
    have hc : c ≠ p := h c (by simp)
    have hpre : ([p].isPrefixOf (c :: rest)) = false := by
      simp [List.isPrefixOf]
      exact fun hcp => absurd hcp.symm hc
    simp only [idxAux, hpre]
    simp only [Bool.false_eq_true, if_false]
    exact ih (fun x hx => h x (by simp [hx])) (i + 1)

/-- Source `jsIndexOf` of an absent single character is `-1`. -/
theorem jsIndexOf_single_neg (p : Char) (s : List Char)
    (h : ∀ c ∈ s, c ≠ p) : jsIndexOf s [p] = -1 :=
  idxAux_single_neg p s h 0

/-- On a colon-free string, the polyfill returns the sentinel `[-1]`. -/
theorem allIndicesOf_no_colon (s : List Char) (h : ∀ c ∈ s, c ≠ ':') :
    allIndicesOf s [':'] = [-1] := by
  have h0 : jsIndexOf s [':'] = -1 := jsIndexOf_single_neg ':' s h
  unfold allIndicesOf
  rw [h0]
  simp [allIndicesAux, jsDropFrom, clampIdx, h0]

/-- The space pattern does not match a string whose head is not a space. -/
theorem jsLastIndexOf_space_neg_from (s : List Char)
    (h : s.head? ≠ some ' ') : jsLastIndexOf s [' '] (-1) = -1 := by
  have hm : clampIdx (-1) s.length = 0 := by simp [clampIdx]
  have hnp : ¬ ([' '] <+: s) := by
    cases s with
    | nil => simp
    | cons c rest =>
      intro hp
      rw [List.cons_prefix_cons] at hp
      exact h (by simp [hp.1.symm])
  unfold jsLastIndexOf
  rw [hm]
  simp [List.range_succ, List.range_zero, List.filter_cons, hnp]

/-- Substring from 0 to a negative end index is empty. -/
theorem jsSubstring_zero_neg (s : List Char) : jsSubstring s 0 (-1) = [] := by
  simp [jsSubstring, clampIdx]

/-! Section: Claim C1 -/

/-- Claim C1 (amended): `buildDocumentFromAttributes` throws (a
`TypeError`) exactly when some attribute's weight value is not a string;
any string weight — including values outside `{A, B, C, D}` — is accepted
and embedded in the generated SQL without validation. -/
theorem c1_amended (attrs : List (String × JsVal))
    (desc : String → AttrDesc) (tableName : String)
    (areNullable shouldAggregate : Bool) :
    (∃ e, buildDocumentFromAttributes attrs desc tableName areNullable
        shouldAggregate = Except.error e) ↔
    ∃ k, (k, JsVal.obj) ∈ attrs := by
  induction attrs with
  | nil => simp [buildDocumentFromAttributes]
  | cons kv rest ih =>
    obtain ⟨k, v⟩ := kv
    cases v with
    | obj =>
      constructor
      · intro _; exact ⟨k, by simp⟩
      · intro _
        exact ⟨"Must be either a weight or attributes of model",
          by simp [buildDocumentFromAttributes]⟩
    | str w =>
      cases h : buildDocumentFromAttributes rest desc tableName areNullable
          shouldAggregate with
      | error e =>
        have hr : ∃ k, (k, JsVal.obj) ∈ rest := ih.mp ⟨e, h⟩
        constructor
        · intro _
          obtain ⟨k', hk'⟩ := hr
          exact ⟨k', by simp [hk']⟩
        · intro _
          exact ⟨e, by simp [buildDocumentFromAttributes, h]⟩
      | ok tail =>
        constructor
        · intro he
          obtain ⟨e, he⟩ := he
          simp [buildDocumentFromAttributes, h] at he
        · intro hk
          obtain ⟨k', hk'⟩ := hk
          rcases List.mem_cons.mp hk' with hh | ht
          · exact absurd (congrArg Prod.snd hh) (by simp)
          · obtain ⟨e, he⟩ := ih.mpr ⟨k', ht⟩
            exact ⟨e, by simp [buildDocumentFromAttributes, he]⟩

/-- Claim C1 counterexample: the weight string `"Z"` is outside
`{A, B, C, D}`, yet the builder does not throw — it returns the fragment
`setweight(to_tsvector("film"."name"), 'Z')`, so SQL is emitted with the
invalid weight embedded. -/
theorem c1_counterexample :
    buildDocumentFromAttributes [("name", JsVal.str "Z")] descEx "film"
        false false =
      Except.ok ["setweight(to_tsvector(\"film\".\"name\"), 'Z')"] ∧
    ¬ ("Z" ∈ (["A", "B", "C", "D"] : List String)) :=
  ⟨rfl, by decide⟩

/-! Section: Claim C10 -/

/-- Claim C10: with two or more accumulated where predicates, the
rendered WHERE clause joins them with `' AND '` in insertion order
(`whereM` appends its renderings to the existing list), and the
conjunction is satisfied exactly when every predicate is satisfied. -/
theorem c10_main (g : QG) (h : 2 ≤ g.whereL.length) :
    QG.getWhere g = "WHERE " ++ joinSep " AND " g.whereL ∧
    (∀ ρ : String → Bool, g.whereL.all ρ = true ↔
      ∀ p ∈ g.whereL, ρ p = true) ∧
    (∀ attrs g', QG.whereM g attrs = some g' →
      ∃ rs, g'.whereL = g.whereL ++ rs ∧
        attrs.mapM (fun ka => renderWhereEntry g.model? ka.1 ka.2) = some rs) := by
  refine ⟨?_, ?_, ?_⟩
  · unfold QG.getWhere
    rw [if_pos (by omega)]
  · intro ρ; exact List.all_eq_true
  · intro attrs g' hw
    unfold QG.whereM at hw
    cases hm : attrs.mapM (fun ka => renderWhereEntry g.model? ka.1 ka.2) with
    | none => rw [hm] at hw; simp at hw
    | some rs =>
      rw [hm] at hw
      simp at hw
      exact ⟨rs, by rw [← hw], rfl⟩

/-- Claim C10 witness: a concrete build with two predicates renders the
two-way conjunction in insertion order. -/
theorem c10_witness :
    QG.getWhere gEx10 =
      "WHERE \"film\".\"title\" = 'Inception' AND \"film\".\"rating\" > '8'" :=
  ((c10_main gEx10 (by decide)).1).trans (by decide)

/-! Section: Claim C7 -/

/-- Claim C7 (amended): a `limit:`/`offset:` token whose value has no
parsable integer prefix (JS `parseInt` gives `NaN`, modelled `none`)
raises no error — `parseQuery` is total — and renders no LIMIT/OFFSET
clause, exactly like the defaults `limit = -1` and `offset = 0`; a value
with a numeric prefix (e.g. `12abc`) instead uses that prefix. -/
theorem c7_amended (raw : String) (g : QG)
    (hl : (parseQuery raw).2.limit = none)
    (ho : (parseQuery raw).2.offset = none) :
    QG.getLimit (QG.limitM g (parseQuery raw).2.limit) = "" ∧
    QG.getLimit (QG.limitM g (some (-1))) = "" ∧
    QG.getOffset (QG.offsetM g (parseQuery raw).2.offset) = "" ∧
    QG.getOffset (QG.offsetM g (some 0)) = "" := by
  rw [hl, ho]
  refine ⟨rfl, ?_, rfl, ?_⟩
  · simp [QG.getLimit, QG.limitM]
  · simp [QG.getOffset, QG.offsetM]

/-- Claim C7 witness: `limit:abc offset:xyz` parses to `NaN` limit and
offset and renders empty LIMIT/OFFSET clauses, like the defaults. -/
theorem c7_witness :
    QG.getLimit (QG.limitM QG.init (parseQuery "limit:abc offset:xyz").2.limit)
        = "" ∧
    QG.getLimit (QG.limitM QG.init (some (-1))) = "" ∧
    QG.getOffset (QG.offsetM QG.init
        (parseQuery "limit:abc offset:xyz").2.offset) = "" ∧
    QG.getOffset (QG.offsetM QG.init (some 0)) = "" :=
  c7_amended "limit:abc offset:xyz" QG.init (by decide) (by decide)

/-- Claim C7 counterexample: `limit:12abc` has a non-numeric value, but
`parseInt` takes the numeric prefix `12`, so a `LIMIT 12` clause IS
rendered — the token does not behave as if absent. -/
theorem c7_counterexample :
    (parseQuery "limit:12abc").2.limit = some 12 ∧
    QG.getLimit (QG.limitM QG.init (parseQuery "limit:12abc").2.limit) =
      "LIMIT 12" ∧
    ("LIMIT 12" : String) ≠ "" :=
  ⟨by decide, by decide, by decide⟩

/-! Section: Claim C5 -/

/-- Claim C5 (amended): when a text query is present and `options.order` is
empty — which covers both an absent order and a caller-supplied EMPTY
order list, since `Util.isEmptyObject([])` is true — the single
`ts_rank(document, query) DESC` entry is injected first; when the caller
supplies a non-empty order list, no rank entry is injected and the
caller's order (mapped to qualified reference-model columns) is used. -/
theorem c5_amended (f : Fn) (optOrder : Option (List (String × String)))
    (refM : ModelRef) (viewTable : String) :
    (emptyOrder optOrder = true →
      searchOrderBy (some f) optOrder refM viewTable =
        [(OrderVal.fnv (tsRank (col "document" (some viewTable) none) f),
          "DESC")]) ∧
    (∀ l, optOrder = some l → l ≠ [] →
      searchOrderBy (some f) optOrder refM viewTable =
        l.map (fun ad =>
          (OrderVal.strv (col (refM.attrField ad.1) (some refM.tableName) none),
           ad.2))) := by
  constructor
  · intro he
    cases optOrder with
    | none => simp [searchOrderBy, emptyOrder]
    | some l =>
      have hl : l = [] := by
        simpa [emptyOrder, List.isEmpty_iff] using he
      subst hl
      simp [searchOrderBy, emptyOrder]
  · intro l hl hne
    subst hl
    have he : emptyOrder (some l) = false := by
      cases l with
      | nil => exact absurd rfl hne
      | cons a as => simp [emptyOrder]
    simp [searchOrderBy, he]

/-- Claim C5 witness: with query `chicago` and no caller order the rank
entry is injected first; with caller order `[("title", "ASC")]` the rank
entry is absent and the mapped caller order is used. -/
theorem c5_witness :
    searchOrderBy (some (toTSQuery "chicago")) none refMEx
        "film_materialized_view" =
      [(OrderVal.fnv (tsRank (col "document" (some "film_materialized_view")
          none) (toTSQuery "chicago")), "DESC")] ∧
    searchOrderBy (some (toTSQuery "chicago")) (some [("title", "ASC")]) refMEx
        "film_materialized_view" =
      [(OrderVal.strv "\"film\".\"title\"", "ASC")] := by
  constructor
  · exact (c5_amended (toTSQuery "chicago") none refMEx
      "film_materialized_view").1 rfl
  · exact ((c5_amended (toTSQuery "chicago") (some [("title", "ASC")])
      refMEx "film_materialized_view").2 [("title", "ASC")] rfl
      (by decide)).trans (by decide)

/-- Claim C5 counterexample: the caller DOES supply an order list — the
empty list — yet the rank expression is injected anyway (the result is
the rank entry, not the caller's empty order), because the source tests
`Util.isEmptyObject(options.order)`, which is true for `[]`. -/
theorem c5_counterexample :
    searchOrderBy (some (toTSQuery "chicago")) (some []) refMEx
        "film_materialized_view" =
      [(OrderVal.fnv (tsRank (col "document" (some "film_materialized_view")
          none) (toTSQuery "chicago")), "DESC")] ∧
    searchOrderBy (some (toTSQuery "chicago")) (some []) refMEx
        "film_materialized_view" ≠ [] :=
  ⟨by decide, by decide⟩

/-! Section: Claim C3 -/

/-- Claim C3 (amended): clauses render in the fixed order CREATE, SELECT,
FROM, JOIN, WHERE, GROUP BY, ORDER BY, LIMIT, OFFSET; the renderer places
exactly one literal space between adjacent slots of the first eight
clauses regardless of emptiness and NO separator between LIMIT and
OFFSET, so the output coincides with the spec's
"single-space-join-non-empty clauses" rendering precisely when every
clause up to LIMIT is non-empty and OFFSET is empty; empty clauses leave
their separator spaces behind, and a present OFFSET abuts LIMIT. -/
theorem c3_amended (g : QG)
    (h1 : g.getCreate ≠ "") (h2 : g.getSelect ≠ "") (h3 : g.getFrom ≠ "")
    (h4 : g.getJoin ≠ "") (h5 : g.getWhere ≠ "") (h6 : g.getGroupBy ≠ "")
    (h7 : g.getOrderBy ≠ "") (h8 : g.getLimit ≠ "") (h9 : g.getOffset = "") :
    QG.getQuery g = specGetQuery g := by
  have b1 : (g.getCreate != "") = true := bne_iff_ne.mpr h1
  have b2 : (g.getSelect != "") = true := bne_iff_ne.mpr h2
  have b3 : (g.getFrom != "") = true := bne_iff_ne.mpr h3
  have b4 : (g.getJoin != "") = true := bne_iff_ne.mpr h4
  have b5 : (g.getWhere != "") = true := bne_iff_ne.mpr h5
  have b6 : (g.getGroupBy != "") = true := bne_iff_ne.mpr h6
  have b7 : (g.getOrderBy != "") = true := bne_iff_ne.mpr h7
  have b8 : (g.getLimit != "") = true := bne_iff_ne.mpr h8
  have b9 : (g.getOffset != "") = false := by rw [h9]; rfl
  unfold QG.getQuery specGetQuery
  rw [h9]
  simp only [List.filter_cons, List.filter_nil, b1, b2, b3, b4, b5, b6, b7,
    b8, b9, if_true, if_false, joinSep, String.append_assoc,
    String.append_empty]

set_option maxRecDepth 8000 in
/-- Claim C3 witness: on a state with every clause except OFFSET set, the
rendered statement is the single-space join of the non-empty clauses. -/
theorem c3_witness :
    QG.getQuery gEx3full = specGetQuery gEx3full ∧
    QG.getQuery gEx3full =
      "CREATE MATERIALIZED VIEW \"film_materialized_view\" AS " ++
      "SELECT \"film\".\"title\" FROM \"film_materialized_view\" " ++
      "LEFT OUTER JOIN \"film\" ON \"film\".\"film_id\" = \"film_materialized_view\".\"film_id\" " ++
      "WHERE \"film\".\"title\" ILIKE '%Mind%' " ++
      "GROUP BY \"film_materialized_view\".\"film_id\" " ++
      "ORDER BY \"film\".\"title\" ASC LIMIT 2;" :=
  ⟨c3_amended gEx3full (by decide) (by decide) (by decide) (by decide)
    (by decide) (by decide) (by decide) (by decide) (by decide),
   by decide⟩

/-- Claim C3 counterexample: with only FROM, LIMIT 2 and OFFSET 1 set, the
rendered statement is `"  FROM \"film\"     LIMIT 2OFFSET 1;"` — empty
clauses leave double/multiple spaces and LIMIT/OFFSET are concatenated
without a space — which differs from the spec's single-space rendering
`"FROM \"film\" LIMIT 2 OFFSET 1;"`. -/
theorem c3_counterexample :
    QG.getQuery gEx3 ≠ specGetQuery gEx3 ∧
    QG.getQuery gEx3 = "  FROM \"film\"     LIMIT 2OFFSET 1;" ∧
    specGetQuery gEx3 = "FROM \"film\" LIMIT 2 OFFSET 1;" :=
  ⟨by decide, by decide, by decide⟩

/-! Section: Claim C8 -/

/-- The space replacement distributes over list concatenation. -/
theorem tsReplaceChars_append (a b : List Char) :
    tsReplaceChars (a ++ b) = tsReplaceChars a ++ tsReplaceChars b := by
  induction a with
  | nil => simp [tsReplaceChars]
  | cons c rest ih => simp [tsReplaceChars, ih]

/-- The space replacement fixes space-free words. -/
theorem tsReplaceChars_no_space (w : List Char) (h : ∀ c ∈ w, c ≠ ' ') :
    tsReplaceChars w = w := by
  induction w with
  | nil => rfl
  | cons c rest ih =>
    have hc : c ≠ ' ' := h c (by simp)
    simp [tsReplaceChars, hc, ih (fun x hx => h x (by simp [hx]))]

/-- String-level distribution of the space replacement. -/
theorem tsReplaceSpaces_append (x y : String) :
    tsReplaceSpaces (x ++ y) = tsReplaceSpaces x ++ tsReplaceSpaces y := by
  unfold tsReplaceSpaces
  rw [String.data_append, tsReplaceChars_append]
  rfl

/-- The space replacement fixes a space-free string. -/
theorem tsReplaceSpaces_no_space (w : String) (h : ∀ c ∈ w.data, c ≠ ' ') :
    tsReplaceSpaces w = w := by
  unfold tsReplaceSpaces
  rw [tsReplaceChars_no_space w.data h]

/-- On a single-space-separated word list, the global space replacement
yields the `' & '` join. -/
theorem tsReplace_joinSep (ws : List String)
    (h : ∀ w ∈ ws, ∀ c ∈ w.data, c ≠ ' ') :
    tsReplaceSpaces (joinSep " " ws) = joinSep " & " ws := by
  induction ws with
  | nil => rfl
  | cons w rest ih =>
    cases rest with
    | nil =>
      show tsReplaceSpaces w = w
      exact tsReplaceSpaces_no_space w (h w (by simp))
    | cons w2 rest2 =>
      show tsReplaceSpaces (w ++ " " ++ joinSep " " (w2 :: rest2)) =
        w ++ " & " ++ joinSep " & " (w2 :: rest2)
      rw [tsReplaceSpaces_append, tsReplaceSpaces_append]
      rw [tsReplaceSpaces_no_space w (h w (by simp))]
      rw [ih (fun x hx => h x (by simp [hx]))]
      rfl

/-- Claim C8 (amended): every single SPACE character of the free-text
term is replaced by `' & '` and `':*'` is appended to the whole term —
for a term whose words are separated by exactly one space this coincides
with the spec's split-join-prefix description — and the compiled query is
attached to the `document` column with the `'@@'` operator in the search
where-map. -/
theorem c8_amended (ws : List String)
    (ow : List (String × String × WhereVal)) (refM : ModelRef)
    (h : ∀ w ∈ ws, ∀ c ∈ w.data, c ≠ ' ') :
    toTSQuery (joinSep " " ws) =
      { fn := "to_tsquery", args := ["'" ++ joinSep " & " ws ++ ":*'"] } ∧
    objLookup (searchWhere (some (toTSQuery (joinSep " " ws))) ow refM)
        "document" =
      some { model := none, operator := "@@",
             value := WhereVal.fnv (toTSQuery (joinSep " " ws)) } := by
  constructor
  · unfold toTSQuery
    rw [tsReplace_joinSep ws h]
  · simp only [searchWhere]
    exact objLookup_objInsert _ "document" _

/-- Claim C8 witness: the two-word term `harry potter` compiles to
`to_tsquery('harry & potter:*')`, attached to `document` via `@@`. -/
theorem c8_witness :
    toTSQuery (joinSep " " ["harry", "potter"]) =
      { fn := "to_tsquery", args := ["'harry & potter:*'"] } ∧
    objLookup (searchWhere (some (toTSQuery (joinSep " " ["harry", "potter"])))
        [] refMEx) "document" =
      some { model := none, operator := "@@",
             value := WhereVal.fnv (toTSQuery (joinSep " " ["harry", "potter"])) } := by
  have h := c8_amended ["harry", "potter"] [] refMEx (by decide)
  exact ⟨h.1.trans (by decide), h.2⟩

/-- Claim C8 counterexample: the term `"a  b"` (two consecutive spaces)
compiles to `to_tsquery('a &  & b:*')`, not to the split-on-whitespace
join `to_tsquery('a & b:*')` the claim describes — the code replaces each
space character rather than splitting on whitespace. -/
theorem c8_counterexample :
    toTSQuery "a  b" ≠ specTSQuery "a  b" ∧
    toTSQuery "a  b" =
      { fn := "to_tsquery", args := ["'a &  & b:*'"] } ∧
    specTSQuery "a  b" =
      { fn := "to_tsquery", args := ["'a & b:*'"] } :=
  ⟨by decide, by decide, by decide⟩

/-! Section: Claim C9 -/

/-- Claim C9 (amended): for every input containing no colon AND not
beginning with a space, `parseQuery` returns the trimmed input as the
free text with an empty filter map, empty order list, `limit = -1` and
`offset = 0` (the sentinel `-1` yields an empty key, which is skipped);
an input that begins with a space instead yields the single-space key
`" "` and a filter entry under it. -/
theorem c9_amended (raw : String)
    (hc : ∀ c ∈ raw.data, c ≠ ':') (hh : raw.data.head? ≠ some ' ') :
    parseQuery raw = (String.mk (jsTrim raw.data), initOptions) := by
  unfold parseQuery parseQueryL
  rw [allIndicesOf_no_colon raw.data hc]
  simp only [List.map_cons, List.map_nil]
  rw [jsLastIndexOf_space_neg_from raw.data hh]
  norm_num
  rw [jsSubstring_zero_neg]
  simp [parseLoop]

/-- Claim C9 witness: `"hello world"` has no colon and no leading space;
it parses to itself with default options. -/
theorem c9_witness :
    parseQuery "hello world" = ("hello world", initOptions) :=
  (c9_amended "hello world" (by decide) (by decide)).trans (by decide)

/-- Claim C9 counterexample: the colon-free input `" a"` (leading space)
does NOT yield an empty filter map: `lastIndexOf(' ', -1)` finds the
leading space at position 0 and `substring(1, -1)` swaps its clamped
arguments, producing the truthy key `" "`, so a filter entry
`{' ': {operator: 'ilike', value: ''}}` is recorded. -/
theorem c9_counterexample :
    (parseQuery " a").1 = "a" ∧
    (parseQuery " a").2.whereL = [(" ", ("ilike", ""))] ∧
    (parseQuery " a").2.whereL ≠ [] :=
  ⟨by decide, by decide, by decide⟩

/-! Section: Claim C6 -/

/-- Each loop iteration only ever appends to the order list. -/
theorem parseStep_order_append (k : List Char) (nk : Option (List Char))
    (q : List Char) (o : ParseOptions) :
    ∃ e, (parseStep k nk q o).2.order = o.order ++ e := by
  simp only [parseStep]
  split
  · exact ⟨_, rfl⟩
  · split
    · exact ⟨[], by simp⟩
    · split
      · exact ⟨[], by simp⟩
      · split
        · exact ⟨[], by simp⟩
        · exact ⟨[], by simp⟩

/-- The whole parse loop only ever appends to the order list. -/
theorem parseLoop_order_append (keys : List (List Char)) :
    ∀ (q : List Char) (o : ParseOptions),
      ∃ t, (parseLoop keys q o).2.order = o.order ++ t := by
  induction keys with
  | nil => intro q o; exact ⟨[], by simp [parseLoop]⟩
  | cons k rest ih =>
    intro q o
    by_cases hk : k = []
    · obtain ⟨t, ht⟩ := ih q o
      exact ⟨t, by simp [parseLoop, hk, ht]⟩
    · obtain ⟨e, he⟩ := parseStep_order_append k rest.head? q o
      obtain ⟨t, ht⟩ := ih (parseStep k rest.head? q o).1
        (parseStep k rest.head? q o).2
      refine ⟨e ++ t, ?_⟩
      simp only [parseLoop, hk, if_false]
      rw [ht, he, List.append_assoc]

/-- Claim C6 (amended): `order` tokens always append (the order list of
any loop run extends the incoming one, never overwrites), and a repeated
filter key is overwritten by the last processed occurrence — but the
recorded operator/value equal the rightmost token's text only when each
earlier duplicate was successfully removed from the string (as when the
duplicates are separated by another recognized token); adjacent
duplicates make the value-extraction `indexOf` land on the wrong
occurrence. -/
theorem c6_amended :
    (∀ (keys : List (List Char)) (q : List Char) (o : ParseOptions),
      ∃ t, (parseLoop keys q o).2.order = o.order ++ t) ∧
    (parseQuery "a:1 b:2 a:3").2.whereL =
      [("a", ("ilike", "3")), ("b", ("ilike", "2"))] ∧
    (parseQuery "order:x foo:1 order:!y").2.order =
      [("x", "ASC"), ("y", "DESC")] :=
  ⟨fun keys q o => parseLoop_order_append keys q o, by decide, by decide⟩

/-- Claim C6 counterexample: in `"a:1 a:2"` the filter map does NOT hold
the last occurrence's value `"2"`: the first iteration fails to remove
its (mis-extracted) token, so the second iteration's
`query.indexOf('a')` still finds the FIRST occurrence and records the
spanning value `"1 a:2"`. -/
theorem c6_counterexample :
    objLookup (parseQuery "a:1 a:2").2.whereL "a" =
      some ("ilike", "1 a:2") ∧
    some (("ilike", "1 a:2") : String × String) ≠ some ("ilike", "2") :=
  ⟨by decide, by decide⟩

/-! Section: Claim C4 -/

/-- Claim C4 (amended): for each recognized token the parser removes the
FIRST occurrence of the reconstructed text `key + ':' + operator + value`
from the (already mutated) query string; when that reconstruction occurs
verbatim — as when each key's first occurrence in the string is the token
itself — every token (including its leading comparison operator) is
removed and the trimmed remainder is the free text; otherwise the token
text stays in the free text. -/
theorem c4_amended :
    parseQuery "hello name:foo" =
      ("hello", { initOptions with whereL := [("name", ("ilike", "foo"))] }) ∧
    parseQuery "price:>=10 order:name" =
      ("", { whereL := [("price", (">=", "10"))], order := [("name", "ASC")],
             limit := some (-1), offset := some 0 }) :=
  ⟨by decide, by decide⟩

/-- Claim C4 counterexample: in `"key text key:value"` the token
`key:value` is recognized (a filter for `key` is recorded), but
`query.indexOf(key)` resolves to the key text's FIRST occurrence at
position 0, the extracted value spans `"text key:value"`, the
reconstruction `"key:text key:value"` occurs nowhere, nothing is removed,
and the returned free text is the whole input — not the remainder
`"key text"` after removing the token. -/
theorem c4_counterexample :
    (parseQuery "key text key:value").1 = "key text key:value" ∧
    (parseQuery "key text key:value").2.whereL =
      [("key", ("ilike", "text key:value"))] ∧
    (parseQuery "key text key:value").1 ≠ "key text" :=
  ⟨by decide, by decide, by decide⟩

/-! Section: Claim C2 -/

/-- Decomposition of the weighted-vector wrapper. -/
theorem build_setweight_decomp (t w : String) :
    (setWeight (toTSVector t).build w).build =
      ("setweight" ++ "(" ++ ("to_tsvector" ++ "(")) ++
        (t ++ (")" ++ (", " ++ ("'" ++ (w ++ ("'" ++ ")")))))) := by
  simp only [setWeight, toTSVector, Fn.build, joinSep, String.append_assoc]

/-- Decomposition of the null-coalescing wrapper. -/
theorem build_coalesce_decomp (t : String) :
    (coalesce t).build =
      ("coalesce" ++ "(") ++ (t ++ (", " ++ ("''" ++ ")"))) := by
  simp only [coalesce, Fn.build, joinSep, String.append_assoc]

/-- Under the aggregation flag, every fragment contains the rendered
`string_agg` call. -/
theorem buildFragment_agg (desc : String → AttrDesc) (tbl : String)
    (nul : Bool) (k w : String) :
    ∃ a x b, buildFragment desc tbl nul true k w =
      a ++ ((stringAggregate x).build ++ b) := by
  simp only [buildFragment]
  by_cases hn : nul = true ∨ (desc k).allowNull = true
  · rw [if_pos hn, build_setweight_decomp, build_coalesce_decomp]
    refine ⟨"setweight" ++ "(" ++ ("to_tsvector" ++ "(") ++ ("coalesce" ++ "("),
      (if ¬((desc k).type_ = "TEXT" ∨ (desc k).type_ = "CHARACTER VARYING" ∨
          (desc k).type_ = "CHARACTER")
        then castText (col k (some tbl) none) else col k (some tbl) none),
      ", " ++ ("''" ++ ")") ++ (")" ++ (", " ++ ("'" ++ (w ++ ("'" ++ ")"))))),
      ?_⟩
    simp [String.append_assoc]
    rfl
  · rw [if_neg hn, build_setweight_decomp]
    refine ⟨"setweight" ++ "(" ++ ("to_tsvector" ++ "("),
      (if ¬((desc k).type_ = "TEXT" ∨ (desc k).type_ = "CHARACTER VARYING" ∨
          (desc k).type_ = "CHARACTER")
        then castText (col k (some tbl) none) else col k (some tbl) none),
      ")" ++ (", " ++ ("'" ++ (w ++ ("'" ++ ")")))), ?_⟩
    simp [String.append_assoc]

/-- Every fragment produced by a successful aggregated build contains the
rendered `string_agg` call. -/
theorem bdfa_agg_fragments (attrs : List (String × JsVal))
    (desc : String → AttrDesc) (tbl : String) (nul : Bool) :
    ∀ frags, buildDocumentFromAttributes attrs desc tbl nul true =
        Except.ok frags →
      ∀ frag ∈ frags, ∃ a x b, frag = a ++ ((stringAggregate x).build ++ b) := by
  induction attrs with
  | nil =>
    intro frags hok
    simp [buildDocumentFromAttributes] at hok
    subst hok
    simp
  | cons kv rest ih =>
    intro frags hok
    obtain ⟨k, v⟩ := kv
    cases v with
    | obj => simp [buildDocumentFromAttributes] at hok
    | str w =>
      cases h : buildDocumentFromAttributes rest desc tbl nul true with
      | error e => simp [buildDocumentFromAttributes, h] at hok
      | ok tail =>
        simp only [buildDocumentFromAttributes, h, Except.ok.injEq] at hok
        subst hok
        intro frag hf
        rcases List.mem_cons.mp hf with hh | ht
        · rw [hh]; exact buildFragment_agg desc tbl nul k w
        · exact ih tail h frag ht

/-- Claim C2: for every include node, `hasMany` forces the aggregation
flag, emits NO group-by entry, and (given a successful fragment build
under that flag) every emitted fragment is wrapped in the
`string_agg` row-aggregation call; `belongsTo`/`hasOne` without inherited
aggregation emit exactly ONE group-by entry, on the key driving the join
(`belongsTo`: the association's target key; `hasOne`: the included
model's primary key), qualified by the include's alias or table name. -/
theorem c2_main (inc : IncludeSpec) (parentTableName : String)
    (aggIn : Bool) (attrs : List (String × JsVal)) (desc : String → AttrDesc)
    (areNullable : Bool) :
    (inc.associationType = "hasMany" →
      (processInclude inc parentTableName aggIn).2.1 = [] ∧
      ∀ frags, buildDocumentFromAttributes attrs desc
          (inc.alias_.getD inc.modelRef.tableName) areNullable
          (processInclude inc parentTableName aggIn).2.2 = Except.ok frags →
        ∀ frag ∈ frags,
          ∃ a x b, frag = a ++ ((stringAggregate x).build ++ b)) ∧
    ((inc.associationType = "belongsTo" ∨ inc.associationType = "hasOne") →
      aggIn = false →
      (processInclude inc parentTableName aggIn).2.1 =
        [col (if inc.associationType = "belongsTo" then inc.targetKey
              else inc.modelRef.primaryKeyField)
           (some (inc.alias_.getD inc.modelRef.tableName)) none]) := by
  constructor
  · intro hm
    have h1 : (processInclude inc parentTableName aggIn).2.1 = [] := by
      simp [processInclude, hm]
    have h2 : (processInclude inc parentTableName aggIn).2.2 = true := by
      simp [processInclude, hm]
    refine ⟨h1, ?_⟩
    intro frags hok
    rw [h2] at hok
    exact bdfa_agg_fragments attrs desc _ areNullable frags hok
  · intro hbo hagg
    subst hagg
    rcases hbo with hb | ho
    · simp [processInclude, hb]
    · simp [processInclude, ho]

/-- Claim C2 witness: a `hasMany` include (`Actors`) yields no group-by
entry and a `string_agg`-wrapped fragment; a `belongsTo` include
(`category`) yields exactly the group-by entry `"category"."id"` on its
target key. -/
theorem c2_witness :
    (processInclude incHasManyEx "film" false).2.1 = [] ∧
    (∃ a x b,
      "setweight(to_tsvector(string_agg(\"Actors\".\"name\", ', ')), 'A')" =
        a ++ ((stringAggregate x).build ++ b)) ∧
    (processInclude incBelongsToEx "film" false).2.1 = ["\"category\".\"id\""] := by
  have h1 := (c2_main incHasManyEx "film" false [("name", JsVal.str "A")]
    descVarcharEx false).1 rfl
  refine ⟨h1.1, ?_, ?_⟩
  · exact h1.2
      ["setweight(to_tsvector(string_agg(\"Actors\".\"name\", ', ')), 'A')"]
      rfl _ (by simp)
  · exact ((c2_main incBelongsToEx "film" false [] descEx false).2
      (Or.inl rfl) rfl).trans (by decide)

end PgSearch
